import Mathlib

/-!
# Verification of the snix-backend wallet aggregation engine

Shallow embedding of `src/services/walletService.ts` (the wallet service used by
`src/controllers/walletController.ts`) together with the numeric helpers of
`src/wallet/walletUtils.ts`.

Modelling conventions:
* JavaScript numbers are modelled as `ℚ`.  Every theorem below evaluates the
  arithmetic only at points where IEEE-754 double arithmetic is exact (small
  integers, and `10^18 = 2^18·5^18` whose mantissa `5^18 < 2^53` makes it an
  exactly representable double), so the rational model agrees with the source.
* Upstream HTTP responses are an explicit environment (a record of oracles),
  one field per remote endpoint; `Except Unit α` models a call that either
  resolves with a payload or rejects (an axios throw).
* Each outbound call is recorded in a trace of `Call` values; the `dispatched`
  flag records whether the source routes that request through
  `rateLimitedRequest` (the rate-limited dispatcher) or issues it with a bare
  `axios` call.
* JavaScript truthiness defaulting (`x || d`, which replaces `undefined`, `0`
  and `""` by `d`) is modelled by the `jsOr*` helpers.
-/

namespace Snix

/-- The chain tag of `walletService.ts` (`'ethereum' | 'solana'`). -/
inductive Blockchain where
  | ethereum
  | solana
deriving DecidableEq, Repr

/-- One character of the character class `[a-fA-F0-9]` from the Ethereum
address regex `/^0x[a-fA-F0-9]{40}$/` (walletService.ts line 118). -/
def isHexDigit (c : Char) : Bool :=
  ('a' ≤ c && c ≤ 'f') || ('A' ≤ c && c ≤ 'F') || ('0' ≤ c && c ≤ '9')

/-- One character of the character class `[1-9A-HJ-NP-Za-km-z]` from the
Solana address regex `/^[1-9A-HJ-NP-Za-km-z]{32,44}$/` (walletService.ts
line 123). -/
def isBase58Char (c : Char) : Bool :=
  ('1' ≤ c && c ≤ '9') || ('A' ≤ c && c ≤ 'H') || ('J' ≤ c && c ≤ 'N') ||
  ('P' ≤ c && c ≤ 'Z') || ('a' ≤ c && c ≤ 'k') || ('m' ≤ c && c ≤ 'z')

/-- `/^0x[a-fA-F0-9]{40}$/.test(address)` (walletService.ts line 118). -/
def isEthereumAddress (s : String) : Bool :=
  match s.data with
  | c0 :: c1 :: rest => c0 == '0' && c1 == 'x' && rest.length == 40 && rest.all isHexDigit
  | _ => false

/-- `/^[1-9A-HJ-NP-Za-km-z]{32,44}$/.test(address)` (walletService.ts
line 123). -/
def isSolanaAddress (s : String) : Bool :=
  32 ≤ s.data.length && s.data.length ≤ 44 && s.data.all isBase58Char

/-- `detectBlockchain` (walletService.ts lines 116–128): Ethereum regex first,
then Solana regex, else `null`. -/
def detectBlockchain (s : String) : Option Blockchain :=
  if isEthereumAddress s then some .ethereum
  else if isSolanaAddress s then some .solana
  else none

/-- Spec-side rendering of the spec's words: the base58 alphabet is the
alphanumeric characters with the visually ambiguous `0`, `O`, `I`, `l`
excluded (spec §4.1 and glossary). -/
def specBase58Char (c : Char) : Bool :=
  (('0' ≤ c && c ≤ '9') || ('A' ≤ c && c ≤ 'Z') || ('a' ≤ c && c ≤ 'z')) &&
  !(c == '0' || c == 'O' || c == 'I' || c == 'l')

/-- Spec-side rendering of "exactly `0x` followed by 40 hexadecimal
characters" (spec §4.1). -/
def SpecEthereumFormat (s : String) : Prop :=
  ∃ rest : List Char,
    s.data = '0' :: 'x' :: rest ∧ rest.length = 40 ∧ ∀ c ∈ rest, isHexDigit c = true

/-- Spec-side rendering of "32–44 characters of base58 alphabet" (spec §4.1). -/
def SpecSolanaFormat (s : String) : Prop :=
  32 ≤ s.data.length ∧ s.data.length ≤ 44 ∧ ∀ c ∈ s.data, specBase58Char c = true

/-- Value of one hexadecimal digit character. -/
def hexVal (c : Char) : Nat :=
  if '0' ≤ c ∧ c ≤ '9' then c.toNat - '0'.toNat
  else if 'a' ≤ c ∧ c ≤ 'f' then c.toNat - 'a'.toNat + 10
  else if 'A' ≤ c ∧ c ≤ 'F' then c.toNat - 'A'.toNat + 10
  else 0

/-- `parseInt(s, 16)` on a hex string (walletService.ts line 145): strips an
optional `0x`/`0X` prefix, reads the longest hexadecimal prefix, `none` for
`NaN` when no digit is present.  (Sign and surrounding whitespace, which no
upstream payload of interest carries, are not modelled.) -/
def parseIntHex (s : String) : Option Nat :=
  let body : List Char :=
    match s.data with
    | '0' :: 'x' :: rest => rest
    | '0' :: 'X' :: rest => rest
    | l => l
  let digits := body.takeWhile isHexDigit
  if digits.isEmpty then none
  else some (digits.foldl (fun acc c => 16 * acc + hexVal c) 0)

/-- Decimal rendering of a JavaScript number (`Number.prototype.toString`),
modelled exactly on integer values — the only values at which the theorems
below evaluate it.  Non-integral rationals are rendered with an explicit
`~num/den` marker so that the function stays total and injective. -/
def numToString (q : ℚ) : String :=
  if q.den = 1 then
    if q.num < 0 then "-" ++ toString q.num.natAbs
    else toString q.num.natAbs
  else "~" ++ toString q.num ++ "/" ++ toString q.den

/-- `wei / 1e18` (walletService.ts lines 146, 213, 214). -/
def weiToEth (wei : ℚ) : ℚ := wei / 10 ^ 18

/-- `lamports / 1e9` (walletService.ts lines 291, 438, 439). -/
def lamportsToSol (lamports : ℚ) : ℚ := lamports / 10 ^ 9

/-- `String.prototype.toLowerCase` (used by walletService.ts line 216 for the
case-insensitive address comparison), modelled characterwise. -/
def jsToLower (s : String) : String := ⟨s.data.map Char.toLower⟩

/-- JavaScript `x || d` on an optional number (`undefined` and `0` are falsy). -/
def jsOrNat : Option Nat → Nat → Nat
  | none, d => d
  | some 0, d => d
  | some n, _ => n

/-- JavaScript `x || d` on an optional rational (`undefined` and `0` are
falsy). -/
def jsOrQ : Option ℚ → ℚ → ℚ
  | none, d => d
  | some q, d => if q = 0 then d else q

/-- JavaScript `x || d` on an optional string (`undefined` and `""` are
falsy). -/
def jsOrStr : Option String → String → String
  | none, d => d
  | some s, d => if s = "" then d else s

/-! ## The rate-limited dispatcher (walletService.ts lines 40–77) -/

/-- `MAX_RETRIES` (walletService.ts line 43). -/
def MAX_RETRIES : Nat := 3

/-- `MIN_DELAY_MS` (walletService.ts line 41). -/
def MIN_DELAY_MS : Nat := 500

/-- The retry condition of walletService.ts line 69:
`status === 429 || (status >= 500 && status < 600)`. -/
def retryableStatus (status : Nat) : Bool :=
  status == 429 || (500 ≤ status && status < 600)

deriving instance DecidableEq for Except

/-- Observable outcome of one logical `rateLimitedRequest` call: the final
result (`.error status` = the surfaced axios error), the number of attempts
made, and the cumulative backoff sleep in milliseconds. -/
structure RetryRun where
  result : Except Nat Unit
  attempts : Nat
  backoffMs : Nat
deriving DecidableEq, Repr

/-- The retry skeleton of `rateLimitedRequest` (walletService.ts lines 53–77).
`responses n` is the upstream outcome of attempt number `n` (`.error s` = an
axios rejection with HTTP status `s`).  On a retryable status with
`retries < MAX_RETRIES` the code sleeps `2^retries * 1000` ms and recurses
with `retries + 1`; otherwise the error is rethrown. -/
def rateLimitedRequest (responses : Nat → Except Nat Unit) (retries : Nat) : RetryRun :=
  match responses retries with
  | .ok _ => ⟨.ok (), 1, 0⟩
  | .error status =>
    if h : retryableStatus status = true ∧ retries < MAX_RETRIES then
      let rest := rateLimitedRequest responses (retries + 1)
      ⟨rest.result, rest.attempts + 1, 2 ^ retries * 1000 + rest.backoffMs⟩
    else ⟨.error status, 1, 0⟩
termination_by MAX_RETRIES - retries
decreasing_by
  have := h.2
  simp only [MAX_RETRIES] at *
  omega

/-- The spacing step of `rateLimitedRequest` (walletService.ts lines 54–63):
a call arriving at clock time `arrival` with shared timestamp `last` sleeps
`MIN_DELAY_MS - (arrival - last)` when the elapsed time is below the spacing,
then sets the timestamp to the current clock, which is the time at which the
request is dispatched. -/
def dispatchTime (last arrival : Nat) : Nat :=
  if arrival - last < MIN_DELAY_MS then arrival + (MIN_DELAY_MS - (arrival - last))
  else arrival

/-- Dispatch times of a sequence of calls threading the shared
`lastRequestTime` state. -/
def dispatchTimes (last : Nat) : List Nat → List Nat
  | [] => []
  | a :: rest =>
    let d := dispatchTime last a
    d :: dispatchTimes d rest

/-- Sequential calls: each call arrives no earlier than the timestamp written
by the previous one (a caller issues the next request only after the previous
dispatch), and the clock never runs backwards past the stored timestamp. -/
def SequentialArrivals : Nat → List Nat → Prop
  | _, [] => True
  | last, a :: rest => last ≤ a ∧ SequentialArrivals (dispatchTime last a) rest

/-! ## Outbound call sites -/

/-- The outbound call sites of a wallet fetch in walletService.ts. -/
inductive CallSite where
  | ethGetBalance
  | ethGetTokenBalances
  | ethGetTokenMetadata (contract : String)
  | ethTxList
  | coingeckoTokenPrice (key : String)
  | coingeckoSimplePrice (id : String)
  | solGetBalance
  | solGetTokenAccounts
  | solTokenList
  | solGetSignatures
  | solGetTransaction (sig : String)
deriving DecidableEq, Repr

/-- One outbound request; `dispatched` records whether the source issues
it through `rateLimitedRequest` (`true`) or through a bare `axios` call
(`false`). -/
structure Call where
  site : CallSite
  dispatched : Bool
deriving DecidableEq, Repr

/-- The CoinGecko price/logo call sites. -/
def isCoinGeckoSite : CallSite → Bool
  | .coingeckoTokenPrice _ => true
  | .coingeckoSimplePrice _ => true
  | _ => false

/-! ## Unified data model (walletService.ts lines 80–109) -/

/-- `Token` (walletService.ts lines 80–89).  `value` is `balance * price`
(the USD valuation, called `balanceUsd` in the spec); `logo` is optional in
the source. -/
structure Token where
  symbol : String
  name : String
  balance : String
  decimals : Nat
  tokenAddress : String
  logo : Option String
  price : ℚ
  value : ℚ
deriving DecidableEq, Repr

/-- `Transaction` (walletService.ts lines 91–100).  `fromAddr`/`toAddr` model
the source's `from`/`to` fields (`from` is a reserved word in Lean). -/
structure Transaction where
  hash : String
  timestamp : ℚ
  fromAddr : String
  toAddr : String
  value : String
  fee : String
  status : String
  type : String
deriving DecidableEq, Repr

/-- `WalletData` (walletService.ts lines 102–109). -/
structure WalletData where
  address : String
  blockchain : Blockchain
  balance : String
  balanceUsd : ℚ
  tokens : List Token
  transactions : List Transaction
deriving DecidableEq, Repr

/-! ## Ethereum adapter (walletService.ts lines 135–253) -/

/-- One entry of `tokensResponse.data.result.tokenBalances`.
`tokenBalanceNum` is the numeric value of the hex `tokenBalance` string (the
source applies `parseInt(·, 16)` to a well-formed hex payload). -/
structure TokenBalanceEntry where
  contractAddress : String
  tokenBalanceNum : Nat
deriving DecidableEq, Repr

/-- `metadataResponse.data.result` of an `alchemy_getTokenMetadata` call;
every field may be absent (`undefined`). -/
structure TokenMetadata where
  symbol : Option String
  name : Option String
  decimals : Option Nat
  logo : Option String
deriving DecidableEq, Repr

/-- One Etherscan `txlist` row (walletService.ts lines 208–217); numeric
fields carry the values of `parseInt` on the decimal wire strings. -/
structure EtherscanTx where
  hash : String
  timeStamp : Nat
  fromAddr : String
  toAddr : String
  value : Nat
  gasPrice : Nat
  gasUsed : Nat
  isError : String
deriving DecidableEq, Repr

/-- Outcome of the Etherscan `txlist` request when it resolves:
`.rows txs` models `status === '1'` with an array result (the mapped case of
line 207), `.other` models any other resolved payload (the code then leaves
`transactions` empty). -/
inductive TxListResult where
  | rows (txs : List EtherscanTx)
  | other
deriving DecidableEq, Repr

/-- Upstream oracle for one Ethereum wallet fetch; `.error ()` models an
axios rejection of the corresponding request. -/
structure EthEnv where
  getBalance : Except Unit Nat
  getTokenBalances : Except Unit (List TokenBalanceEntry)
  getTokenMetadata : String → Except Unit TokenMetadata
  tokenPrice : String → Except Unit (Option ℚ)
  txList : Except Unit TxListResult
  ethPrice : Except Unit (Option ℚ)

/-- Per-token processing inside the `Promise.all` map (walletService.ts
lines 159–196): a metadata lookup issued with bare `axios` whose failure
rejects the whole map, then a dispatched CoinGecko price lookup whose failure
is caught and defaulted to price `0`. -/
def processEthToken (env : EthEnv) (t : TokenBalanceEntry) :
    Except Unit Token × List Call :=
  let metaCall : List Call := [⟨.ethGetTokenMetadata t.contractAddress, false⟩]
  match env.getTokenMetadata t.contractAddress with
  | .error _ => (.error (), metaCall)
  | .ok metadata =>
    let decimals := jsOrNat metadata.decimals 18
    let balance : ℚ := (t.tokenBalanceNum : ℚ) / 10 ^ decimals
    let priceCall : List Call := [⟨.coingeckoTokenPrice t.contractAddress, true⟩]
    let price : ℚ :=
      match env.tokenPrice t.contractAddress with
      | .error _ => 0
      | .ok usd => jsOrQ usd 0
    (.ok { symbol := jsOrStr metadata.symbol "UNKNOWN"
         , name := jsOrStr metadata.name "Unknown Token"
         , balance := numToString balance
         , decimals := decimals
         , tokenAddress := t.contractAddress
         , logo := metadata.logo
         , price := price
         , value := balance * price }, metaCall ++ priceCall)

/-- `Promise.all(tokenBalances.map(...))` (walletService.ts lines 158–197):
any per-token rejection rejects the join. -/
def processEthTokens (env : EthEnv) : List TokenBalanceEntry →
    Except Unit (List Token) × List Call
  | [] => (.ok [], [])
  | t :: rest =>
    match (processEthToken env t).1 with
    | .error _ => (.error (), (processEthToken env t).2)
    | .ok tok =>
      match (processEthTokens env rest).1 with
      | .error _ => (.error (), (processEthToken env t).2 ++ (processEthTokens env rest).2)
      | .ok toks => (.ok (tok :: toks), (processEthToken env t).2 ++ (processEthTokens env rest).2)

/-- The Etherscan row mapper (walletService.ts lines 208–217). -/
def mapEthTx (address : String) (tx : EtherscanTx) : Transaction :=
  { hash := tx.hash
  , timestamp := (tx.timeStamp : ℚ)
  , fromAddr := tx.fromAddr
  , toAddr := tx.toAddr
  , value := numToString (weiToEth (tx.value : ℚ))
  , fee := numToString (weiToEth ((tx.gasPrice : ℚ) * (tx.gasUsed : ℚ)))
  , status := if tx.isError = "0" then "success" else "failed"
  , type := if jsToLower tx.fromAddr = jsToLower address then "send" else "receive" }

/-- Error message thrown by the Ethereum adapter's top-level catch
(walletService.ts line 251). -/
def ethFailMsg : String := "Failed to fetch Ethereum wallet data"

/-- `getEthereumWalletData` (walletService.ts lines 135–253).  The native
balance, token listing, per-token metadata and Etherscan requests are bare
`axios` calls; only the CoinGecko price lookups go through
`rateLimitedRequest`.  Any rejection that reaches the top-level `try` is
rethrown as `ethFailMsg`. -/
def getEthereumWalletData (env : EthEnv) (address : String) :
    Except String WalletData × List Call :=
  let c0 : List Call := [⟨.ethGetBalance, false⟩]
  match env.getBalance with
  | .error _ => (.error ethFailMsg, c0)
  | .ok balanceWei =>
    let balanceEth := weiToEth (balanceWei : ℚ)
    let c1 := c0 ++ [⟨.ethGetTokenBalances, false⟩]
    match env.getTokenBalances with
    | .error _ => (.error ethFailMsg, c1)
    | .ok entries =>
      let tokenCalls := (processEthTokens env entries).2
      match (processEthTokens env entries).1 with
      | .error _ => (.error ethFailMsg, c1 ++ tokenCalls)
      | .ok tokens =>
        let c2 := c1 ++ tokenCalls ++ [⟨.ethTxList, false⟩]
        match env.txList with
        | .error _ => (.error ethFailMsg, c2)
        | .ok txResult =>
          let transactions :=
            match txResult with
            | .rows txs => txs.map (mapEthTx address)
            | .other => []
          let c3 := c2 ++ [⟨.coingeckoSimplePrice "ethereum", true⟩]
          let ethPrice : ℚ :=
            match env.ethPrice with
            | .error _ => 0
            | .ok usd => jsOrQ usd 0
          (.ok { address := address
               , blockchain := .ethereum
               , balance := numToString balanceEth
               , balanceUsd := balanceEth * ethPrice
               , tokens := tokens
               , transactions := transactions }, c3)

/-! ## Solana adapter (walletService.ts lines 260–482) -/

/-- One entry of `getTokenAccountsByOwner`'s parsed result
(`account.account.data.parsed.info`). -/
structure SolTokenAccount where
  mint : String
  uiAmount : ℚ
  decimals : Nat
deriving DecidableEq, Repr

/-- One entry of the solana-labs token list (walletService.ts lines 331–339). -/
structure TokenListEntry where
  address : String
  symbol : String
  name : String
  logoURI : String
deriving DecidableEq, Repr

/-- One element of `transaction.message.accountKeys` in a parsed Solana
transaction. -/
structure AccountKey where
  pubkey : String
  signer : Bool
  writable : Bool
deriving DecidableEq, Repr

/-- `txDetails.meta` of a `getTransaction` response; `err` is the truthiness
of `meta.err`, the balance arrays may be absent. -/
structure SolTxMeta where
  fee : ℚ
  err : Bool
  preBalances : Option (List ℚ)
  postBalances : Option (List ℚ)
deriving DecidableEq, Repr

/-- `txDetails` of a `getTransaction` response; `blockTime` and
`accountKeys` may be absent. -/
structure SolTxDetails where
  blockTime : Option ℚ
  meta : Option SolTxMeta
  accountKeys : Option (List AccountKey)
deriving DecidableEq, Repr

/-- Upstream oracle for one Solana wallet fetch.  `heliusKey` is the
`HELIUS_API_KEY` configuration value; `nowSeconds` is `Date.now() / 1000`,
used when a transaction carries no `blockTime`.  `getTransaction sig = .ok
none` models a resolved response with `result` null. -/
structure SolEnv where
  heliusKey : String
  getBalance : Except Unit ℚ
  getTokenAccounts : Except Unit (List SolTokenAccount)
  tokenList : Except Unit (List TokenListEntry)
  tokenPrice : String → Except Unit (Option ℚ)
  getSignatures : Except Unit (List String)
  getTransaction : String → Except Unit (Option SolTxDetails)
  solPrice : Except Unit (Option ℚ)
  nowSeconds : ℚ

/-- Per-token-account processing (walletService.ts lines 312–371): a
dispatched token-list fetch whose failure is caught (keeping the `UNKNOWN`
defaults), then a dispatched CoinGecko price lookup whose failure is caught
(price `0`). -/
def processSolToken (env : SolEnv) (acct : SolTokenAccount) : Token × List Call :=
  let defaults : String × String × String := ("UNKNOWN", "Unknown Token", "")
  let (symbol, name, logo) :=
    match env.tokenList with
    | .error _ => defaults
    | .ok entries =>
      match entries.find? (fun t => t.address == acct.mint) with
      | some found => (found.symbol, found.name, found.logoURI)
      | none => defaults
  let decimals := jsOrNat (some acct.decimals) 9
  let price : ℚ :=
    match env.tokenPrice acct.mint with
    | .error _ => 0
    | .ok usd => jsOrQ usd 0
  ({ symbol := symbol
   , name := name
   , balance := numToString acct.uiAmount
   , decimals := decimals
   , tokenAddress := acct.mint
   , logo := some logo
   , price := price
   , value := acct.uiAmount * price },
   [⟨.solTokenList, true⟩, ⟨.coingeckoTokenPrice acct.mint, true⟩])

/-- `Promise.all(tokenAccounts.map(...))` (walletService.ts lines 311–372);
no branch of the per-token code rethrows, so the join always resolves. -/
def processSolTokens (env : SolEnv) : List SolTokenAccount → List Token × List Call
  | [] => ([], [])
  | a :: rest =>
    ((processSolToken env a).1 :: (processSolTokens env rest).1,
     (processSolToken env a).2 ++ (processSolTokens env rest).2)

/-- Assembly of one Solana `Transaction` from resolved `getTransaction`
details (walletService.ts lines 406–442): the fee payer is the best guess
for `from`, `to` is left empty, and both `value` and `fee` carry the network
fee in SOL. -/
def buildSolTx (env : SolEnv) (address sig : String) (td : SolTxDetails) :
    Transaction :=
  let blockTime := jsOrQ td.blockTime env.nowSeconds
  let fee : ℚ := match td.meta with
    | none => 0
    | some m => m.fee
  let keys := td.accountKeys
  let feePayer :=
    match keys with
    | none => ""
    | some ks =>
      match ks.find? (fun a => a.signer && a.writable) with
      | some a => a.pubkey
      | none => jsOrStr (ks.head?.map (·.pubkey)) ""
  let type0 : String :=
    match keys, td.meta with
    | some ks, some m =>
      match ks.findIdx? (fun a => a.pubkey == address), m.preBalances, m.postBalances with
      | some i, some pre, some post =>
        match pre.get? i, post.get? i with
        | some p, some q => if q < p then "send" else if p < q then "receive" else "unknown"
        | _, _ => "unknown"
      | _, _, _ => "unknown"
    | _, _ => "unknown"
  let type1 := if type0 = "unknown" ∧ feePayer = address then "send" else type0
  { hash := sig
  , timestamp := blockTime * 1000
  , fromAddr := feePayer
  , toAddr := ""
  , value := numToString (lamportsToSol fee)
  , fee := numToString (lamportsToSol fee)
  , status := if (td.meta.map (·.err)).getD false then "failed" else "success"
  , type := type1 }

/-- The per-signature detail loop (walletService.ts lines 390–450): empty or
missing signatures are skipped (`continue`), a rejected or empty
`getTransaction` response skips that transaction and the loop continues. -/
def processSolSigs (env : SolEnv) (address : String) :
    List String → List Transaction × List Call
  | [] => ([], [])
  | sig :: rest =>
    if sig = "" then processSolSigs env address rest
    else
      let built : List Transaction :=
        match env.getTransaction sig with
        | .error _ => []
        | .ok none => []
        | .ok (some td) => [buildSolTx env address sig td]
      (built ++ (processSolSigs env address rest).1,
       ⟨.solGetTransaction sig, true⟩ :: (processSolSigs env address rest).2)

/-- The snapshot returned when `HELIUS_API_KEY` is missing (walletService.ts
lines 265–273). -/
def emptySolSnapshot (address : String) : WalletData :=
  { address := address
  , blockchain := .solana
  , balance := "0"
  , balanceUsd := 0
  , tokens := []
  , transactions := [] }

/-- Error message thrown by the Solana adapter's top-level catch
(walletService.ts line 480). -/
def solFailMsg : String := "Failed to fetch Solana wallet data"

/-- `getSolanaWalletData` (walletService.ts lines 260–482).  With an empty
`HELIUS_API_KEY` the function returns an empty snapshot without any outbound
call; otherwise every request is routed through `rateLimitedRequest`, and a
rejection of a top-level request (balance, token accounts, signature list)
is rethrown as `solFailMsg`. -/
def getSolanaWalletData (env : SolEnv) (address : String) :
    Except String WalletData × List Call :=
  if env.heliusKey = "" then
    (.ok (emptySolSnapshot address), [])
  else
    let c0 : List Call := [⟨.solGetBalance, true⟩]
    match env.getBalance with
    | .error _ => (.error solFailMsg, c0)
    | .ok lamports =>
      let balanceSol := lamportsToSol lamports
      let c1 := c0 ++ [⟨.solGetTokenAccounts, true⟩]
      match env.getTokenAccounts with
      | .error _ => (.error solFailMsg, c1)
      | .ok accounts =>
        let tokens := (processSolTokens env accounts).1
        let c2 := c1 ++ (processSolTokens env accounts).2 ++ [⟨.solGetSignatures, true⟩]
        match env.getSignatures with
        | .error _ => (.error solFailMsg, c2)
        | .ok sigs =>
          let transactions := (processSolSigs env address (sigs.take 5)).1
          let c3 := c2 ++ (processSolSigs env address (sigs.take 5)).2 ++
            [⟨.coingeckoSimplePrice "solana", true⟩]
          let solPrice : ℚ :=
            match env.solPrice with
            | .error _ => 0
            | .ok usd => jsOrQ usd 0
          (.ok { address := address
               , blockchain := .solana
               , balance := numToString balanceSol
               , balanceUsd := balanceSol * solPrice
               , tokens := tokens
               , transactions := transactions }, c3)

/-! ## The aggregator (walletService.ts lines 489–501) -/

/-- The full upstream oracle. -/
structure Env where
  eth : EthEnv
  sol : SolEnv

/-- Error message thrown on an unrecognized address (walletService.ts
line 493). -/
def invalidAddressMsg : String := "Invalid wallet address"

/-- `getWalletData` (walletService.ts lines 489–501): classify, then select
the adapter; an unrecognized address throws before any outbound call. -/
def getWalletData (env : Env) (address : String) :
    Except String WalletData × List Call :=
  match detectBlockchain address with
  | none => (.error invalidAddressMsg, [])
  | some .ethereum => getEthereumWalletData env.eth address
  | some .solana => getSolanaWalletData env.sol address

/-! ## Spec-side relations used by the claims -/

/-- Relation between a token-listing entry and the produced token: the claim's
"the affected item is defaulted (price → 0) and every other item is still
returned" for the Ethereum per-token price lookup. -/
def EthTokenSpec (env : EthEnv) (t : TokenBalanceEntry) (tok : Token) : Prop :=
  tok.tokenAddress = t.contractAddress ∧
  (env.tokenPrice t.contractAddress = .error () → tok.price = 0 ∧ tok.value = 0)

/-- Relation between a Solana token account and the produced token: the
price is zeroed when its price lookup rejects, and the item is still
produced. -/
def SolTokenSpec (env : SolEnv) (a : SolTokenAccount) (tok : Token) : Prop :=
  tok.tokenAddress = a.mint ∧
  (env.tokenPrice a.mint = .error () → tok.price = 0 ∧ tok.value = 0)

/-- A `getTransaction` response that resolves with a non-null result. -/
def sigResolved (env : SolEnv) (s : String) : Bool :=
  match env.getTransaction s with
  | .ok (some _) => true
  | _ => false

/-- A signature entry that the detail loop neither skips as empty nor drops
because its detail fetch failed or returned no result. -/
def goodSig (env : SolEnv) (s : String) : Bool :=
  !(s == "") && sigResolved env s

/-! ## Concrete environments used by witnesses and counterexamples -/

/-- A well-formed Ethereum address (0x followed by 40 hex digits). -/
def ethAddrDemo : String := "0xaaaaaaaaaaaaaaaaaaaaaaaaaaaaaaaaaaaaaaaa"

/-- A well-formed Solana address (32 base58 characters). -/
def solAddrDemo : String := "11111111111111111111111111111111"

/-- Demo token metadata payload. -/
def ethMetadataDemo : TokenMetadata :=
  { symbol := some "TK1", name := some "Token One", decimals := some 6
  , logo := some "https://img.example/tk1.png" }

/-- Demo Etherscan row whose `from` and `to` both differ from
`ethAddrDemo`. -/
def ethTxDemo : EtherscanTx :=
  { hash := "0xhash1", timeStamp := 1700000000
  , fromAddr := "0xbbbbbbbbbbbbbbbbbbbbbbbbbbbbbbbbbbbbbbbb"
  , toAddr := "0xcccccccccccccccccccccccccccccccccccccccc"
  , value := 10 ^ 18, gasPrice := 20000000000, gasUsed := 21000, isError := "0" }

/-- A fully healthy Ethereum environment. -/
def ethEnvOk : EthEnv :=
  { getBalance := .ok (10 ^ 18)
  , getTokenBalances := .ok [⟨"0xT1", 1000000⟩]
  , getTokenMetadata := fun _ => .ok ethMetadataDemo
  , tokenPrice := fun _ => .ok (some 2)
  , txList := .ok (.rows [ethTxDemo])
  , ethPrice := .ok (some 3000) }

/-- Healthy Ethereum environment except that the per-token metadata lookup
rejects. -/
def ethEnvMetaFail : EthEnv :=
  { ethEnvOk with getTokenMetadata := fun _ => .error () }

/-- Three tokens; the price lookup of the second one rejects, everything else
is healthy. -/
def ethEnvThreeTokens : EthEnv :=
  { getBalance := .ok 0
  , getTokenBalances := .ok [⟨"0xt1", 1000000⟩, ⟨"0xt2", 2000000⟩, ⟨"0xt3", 3000000⟩]
  , getTokenMetadata := fun _ => .ok ethMetadataDemo
  , tokenPrice := fun c => if c = "0xt2" then .error () else .ok (some 1)
  , txList := .ok (.rows [])
  , ethPrice := .ok (some 1) }

/-- The middle token of the `ethEnvThreeTokens` run: its price lookup
rejected, so price and USD value are zero while the token itself is kept. -/
def ethTokenMidDemo : Token :=
  { symbol := "TK1", name := "Token One", balance := "2", decimals := 6
  , tokenAddress := "0xt2", logo := some "https://img.example/tk1.png"
  , price := 0, value := 0 }

/-- The snapshot that `getEthereumWalletData ethEnvThreeTokens` returns: all
three tokens present, the middle one zero-valued. -/
def wdThreeDemo : WalletData :=
  { address := ethAddrDemo
  , blockchain := .ethereum
  , balance := "0"
  , balanceUsd := 0
  , tokens :=
      [{ symbol := "TK1", name := "Token One", balance := "1", decimals := 6
       , tokenAddress := "0xt1", logo := some "https://img.example/tk1.png"
       , price := 1, value := 1 },
       ethTokenMidDemo,
       { symbol := "TK1", name := "Token One", balance := "3", decimals := 6
       , tokenAddress := "0xt3", logo := some "https://img.example/tk1.png"
       , price := 1, value := 3 }]
  , transactions := [] }

/-- Demo parsed Solana transaction details. -/
def solTxDetailsDemo : SolTxDetails :=
  { blockTime := some 1700000000
  , meta := some { fee := 5000, err := false
                 , preBalances := some [10, 0], postBalances := some [5, 5] }
  , accountKeys := some [⟨solAddrDemo, true, true⟩, ⟨"SomeOtherPubkey", false, true⟩] }

/-- A healthy Solana environment whose second signature's detail fetch
rejects. -/
def solEnvOk : SolEnv :=
  { heliusKey := "demo-helius-key"
  , getBalance := .ok 1000000000
  , getTokenAccounts := .ok [⟨"MintA", 5, 6⟩]
  , tokenList := .ok [⟨"MintA", "TKA", "Token A", "https://img.example/a.png"⟩]
  , tokenPrice := fun _ => .ok (some 2)
  , getSignatures := .ok ["sig1", "sig2"]
  , getTransaction := fun s => if s = "sig1" then .ok (some solTxDetailsDemo) else .error ()
  , solPrice := .ok (some 100)
  , nowSeconds := 1700000000 }

/-- Same Solana environment with the `HELIUS_API_KEY` configuration empty. -/
def solEnvNoKey : SolEnv := { solEnvOk with heliusKey := "" }

/-- A Solana environment for a genuinely empty wallet: zero balance, no token
accounts, no signatures. -/
def solEnvEmptyWallet : SolEnv :=
  { solEnvOk with
    getBalance := .ok 0
    getTokenAccounts := .ok []
    getSignatures := .ok [] }

/-- The transaction that `solEnvOk` produces for `sig1` (fee 5000 lamports =
1/200000 SOL; the balance diff 10 → 5 at the address's account index marks it
a send). -/
def solTxOutDemo : Transaction :=
  { hash := "sig1"
  , timestamp := 1700000000000
  , fromAddr := solAddrDemo
  , toAddr := ""
  , value := "~1/200000"
  , fee := "~1/200000"
  , status := "success"
  , type := "send" }

/-- The snapshot that `getSolanaWalletData solEnvOk solAddrDemo` returns. -/
def solSnapshotDemo : WalletData :=
  { address := solAddrDemo
  , blockchain := .solana
  , balance := "1"
  , balanceUsd := 100
  , tokens := [{ symbol := "TKA", name := "Token A", balance := "5", decimals := 6
               , tokenAddress := "MintA", logo := some "https://img.example/a.png"
               , price := 2, value := 10 }]
  , transactions := [solTxOutDemo] }

/-- Full demo oracle. -/
def envDemo : Env := { eth := ethEnvOk, sol := solEnvOk }

/-- Full oracle with the Helius key missing. -/
def envNoKey : Env := { eth := ethEnvOk, sol := solEnvNoKey }

/-! ## Helper lemmas -/

/-- `Char` order is codepoint order. -/
theorem charLe_iff (a b : Char) : (a ≤ b) ↔ a.toNat ≤ b.toNat := Iff.rfl

/-- `Char` equality is codepoint equality. -/
theorem charEq_iff (a b : Char) : (a = b) ↔ a.toNat = b.toNat := by
  constructor
  · intro h; rw [h]
  · intro h
    exact Char.ext (UInt32.eq_of_toBitVec_eq (BitVec.eq_of_toNat_eq h))

set_option maxRecDepth 4000 in
/-- The regex character class `[1-9A-HJ-NP-Za-km-z]` is exactly the base58
alphabet of the spec: alphanumerics minus `0`, `O`, `I`, `l`. -/
theorem isBase58Char_eq_spec (c : Char) : isBase58Char c = specBase58Char c := by
  unfold isBase58Char specBase58Char
  rw [Bool.eq_iff_iff]
  simp only [Bool.or_eq_true, Bool.and_eq_true, Bool.not_eq_true']
  simp only [Bool.or_eq_false_iff, decide_eq_true_eq, beq_eq_false_iff_ne, ne_eq]
  simp only [charLe_iff, charEq_iff]
  have e1 : ('0' : Char).toNat = 48 := rfl
  have e2 : ('1' : Char).toNat = 49 := rfl
  have e3 : ('9' : Char).toNat = 57 := rfl
  have e4 : ('A' : Char).toNat = 65 := rfl
  have e5 : ('H' : Char).toNat = 72 := rfl
  have e6 : ('I' : Char).toNat = 73 := rfl
  have e7 : ('J' : Char).toNat = 74 := rfl
  have e8 : ('N' : Char).toNat = 78 := rfl
  have e9 : ('O' : Char).toNat = 79 := rfl
  have e10 : ('P' : Char).toNat = 80 := rfl
  have e11 : ('Z' : Char).toNat = 90 := rfl
  have e12 : ('a' : Char).toNat = 97 := rfl
  have e13 : ('k' : Char).toNat = 107 := rfl
  have e14 : ('l' : Char).toNat = 108 := rfl
  have e15 : ('m' : Char).toNat = 109 := rfl
  have e16 : ('z' : Char).toNat = 122 := rfl
  omega

/-- The Ethereum regex accepts exactly the strings of the spec's Ethereum
format. -/
theorem isEthereumAddress_iff (s : String) :
    isEthereumAddress s = true ↔ SpecEthereumFormat s := by
  unfold isEthereumAddress SpecEthereumFormat
  rcases hs : s.data with _ | ⟨c0, _ | ⟨c1, rest⟩⟩
  · simp
  · simp
  · simp only [Bool.and_eq_true, beq_iff_eq, List.all_eq_true, List.cons.injEq]
    constructor
    · rintro ⟨⟨⟨h0, h1⟩, hlen⟩, hall⟩
      exact ⟨rest, ⟨h0, h1, rfl⟩, hlen, hall⟩
    · rintro ⟨rest', ⟨h0, h1, hr⟩, hlen, hall⟩
      subst hr
      exact ⟨⟨⟨h0, h1⟩, hlen⟩, hall⟩

/-- The Solana regex accepts exactly the strings of the spec's Solana
format. -/
theorem isSolanaAddress_iff (s : String) :
    isSolanaAddress s = true ↔ SpecSolanaFormat s := by
  unfold isSolanaAddress SpecSolanaFormat
  simp only [Bool.and_eq_true, decide_eq_true_eq, List.all_eq_true,
    isBase58Char_eq_spec, and_assoc]

/-! ## C5 — the address classifier -/

/-- C5: `detectBlockchain` is a pure function of the input string that
returns Ethereum exactly on `0x` + 40 hex characters, Solana exactly on
32–44 base58 characters (alphanumerics excluding `0`, `O`, `I`, `l`) that
are not an Ethereum match, and null otherwise. -/
theorem C5_classifier (s : String) :
    (detectBlockchain s = some .ethereum ↔ SpecEthereumFormat s) ∧
    (detectBlockchain s = some .solana ↔ (SpecSolanaFormat s ∧ ¬ SpecEthereumFormat s)) ∧
    (detectBlockchain s = none ↔ (¬ SpecEthereumFormat s ∧ ¬ SpecSolanaFormat s)) := by
  unfold detectBlockchain
  rw [← isEthereumAddress_iff, ← isSolanaAddress_iff]
  by_cases he : isEthereumAddress s = true
  · simp [he]
  · by_cases hs : isSolanaAddress s = true <;> simp [he, hs]

/-! ## C8 — exact native-unit conversion at whole units -/

/-- C8: `parseInt("0xde0b6b3a7640000", 16)` is exactly `10^18` (an exactly
representable double), dividing by `1e18` and stringifying yields `"1"`, and
`1000000000` lamports over `1e9` yields `"1"`. -/
theorem C8_conversion :
    parseIntHex "0xde0b6b3a7640000" = some (10 ^ 18) ∧
    numToString (weiToEth ((10 : ℚ) ^ 18)) = "1" ∧
    numToString (lamportsToSol ((1000000000 : ℚ))) = "1" := by
  refine ⟨by rfl, ?_, ?_⟩
  · have h : weiToEth ((10 : ℚ) ^ 18) = 1 := by
      unfold weiToEth; norm_num
    rw [h]; rfl
  · have h : lamportsToSol ((1000000000 : ℚ)) = 1 := by
      unfold lamportsToSol; norm_num
    rw [h]; rfl

/-! ## C2 — unrecognized addresses fail fast with no outbound call -/

/-- C2: when the classifier recognizes neither format, `getWalletData` fails
with the invalid-address error and the outbound trace is empty: no adapter
runs and no dispatcher call happens. -/
theorem C2_invalid_address (env : Env) (address : String)
    (h : detectBlockchain address = none) :
    getWalletData env address = (.error invalidAddressMsg, []) := by
  unfold getWalletData
  rw [h]

/-- Witness for C2 at the concrete address `"bad"`. -/
theorem C2_witness :
    detectBlockchain "bad" = none ∧
    getWalletData envDemo "bad" = (.error invalidAddressMsg, []) :=
  ⟨by decide, C2_invalid_address envDemo "bad" (by decide)⟩

/-! ## C3 — retry with exponential backoff -/

/-- A resolved attempt ends the call with one attempt and no backoff. -/
theorem rateLimitedRequest_ok (responses : Nat → Except Nat Unit) (retries : Nat)
    (h : responses retries = .ok ()) :
    rateLimitedRequest responses retries = ⟨.ok (), 1, 0⟩ := by
  rw [rateLimitedRequest, h]

/-- A retryable failure within budget sleeps `2^retries` seconds and
recurses. -/
theorem rateLimitedRequest_retry (responses : Nat → Except Nat Unit) (retries status : Nat)
    (h : responses retries = .error status) (hr : retryableStatus status = true)
    (hlt : retries < MAX_RETRIES) :
    rateLimitedRequest responses retries =
      ⟨(rateLimitedRequest responses (retries + 1)).result,
       (rateLimitedRequest responses (retries + 1)).attempts + 1,
       2 ^ retries * 1000 + (rateLimitedRequest responses (retries + 1)).backoffMs⟩ := by
  rw [rateLimitedRequest, h]
  simp [hr, hlt]

/-- A failure that is not retryable-within-budget is rethrown as is. -/
theorem rateLimitedRequest_stop (responses : Nat → Except Nat Unit) (retries status : Nat)
    (h : responses retries = .error status)
    (hns : ¬(retryableStatus status = true ∧ retries < MAX_RETRIES)) :
    rateLimitedRequest responses retries = ⟨.error status, 1, 0⟩ := by
  rw [rateLimitedRequest, h]
  simp [hns]

/-- C3: a 429/5xx response retries after `2^attempt` seconds, at most 3
retries, surfacing the last error when the budget is exhausted; a 429, 429,
200 sequence succeeds on exactly the third attempt after 1s + 2s of backoff;
four consecutive 429s fail; any other 4xx propagates immediately with no
retry. -/
theorem C3_retry_backoff :
    rateLimitedRequest (fun n => if n < 2 then .error 429 else .ok ()) 0 =
      ⟨.ok (), 3, 1000 + 2000⟩ ∧
    rateLimitedRequest (fun _ => .error 429) 0 =
      ⟨.error 429, 4, 1000 + 2000 + 4000⟩ ∧
    (∀ (responses : Nat → Except Nat Unit) (status : Nat),
      responses 0 = .error status → retryableStatus status = false →
      rateLimitedRequest responses 0 = ⟨.error status, 1, 0⟩) ∧
    (∀ (responses : Nat → Except Nat Unit) (s0 s1 s2 s3 : Nat),
      responses 0 = .error s0 → responses 1 = .error s1 →
      responses 2 = .error s2 → responses 3 = .error s3 →
      retryableStatus s0 = true → retryableStatus s1 = true →
      retryableStatus s2 = true → retryableStatus s3 = true →
      rateLimitedRequest responses 0 =
        ⟨.error s3, 4, 2 ^ 0 * 1000 + 2 ^ 1 * 1000 + 2 ^ 2 * 1000⟩) := by
  refine ⟨?_, ?_, ?_, ?_⟩
  · rw [rateLimitedRequest_retry _ 0 429 (by norm_num) (by decide) (by decide),
      rateLimitedRequest_retry _ 1 429 (by norm_num) (by decide) (by decide),
      rateLimitedRequest_ok _ 2 (by norm_num)]
    decide
  · rw [rateLimitedRequest_retry _ 0 429 rfl (by decide) (by decide),
      rateLimitedRequest_retry _ 1 429 rfl (by decide) (by decide),
      rateLimitedRequest_retry _ 2 429 rfl (by decide) (by decide),
      rateLimitedRequest_stop _ 3 429 rfl (by decide)]
    decide
  · intro responses status h hr
    exact rateLimitedRequest_stop responses 0 status h (by simp [hr])
  · intro responses s0 s1 s2 s3 h0 h1 h2 h3 r0 r1 r2 r3
    have e3 : rateLimitedRequest responses 3 = ⟨.error s3, 1, 0⟩ :=
      rateLimitedRequest_stop responses 3 s3 h3 (by simp [MAX_RETRIES])
    have e2 := rateLimitedRequest_retry responses 2 s2 h2 r2 (by decide)
    rw [e3] at e2
    have e1 := rateLimitedRequest_retry responses 1 s1 h1 r1 (by decide)
    rw [e2] at e1
    have e0 := rateLimitedRequest_retry responses 0 s0 h0 r0 (by decide)
    rw [e1] at e0
    rw [e0]
    dsimp only
    norm_num

/-- Witness for C3: the non-retryable branch applied at the concrete status
404, together with the concrete 429, 429, 200 run. -/
theorem C3_witness :
    rateLimitedRequest (fun _ => .error 404) 0 = ⟨.error 404, 1, 0⟩ ∧
    rateLimitedRequest (fun n => if n < 2 then .error 429 else .ok ()) 0 =
      ⟨.ok (), 3, 1000 + 2000⟩ :=
  ⟨C3_retry_backoff.2.2.1 (fun _ => .error 404) 404 rfl (by decide),
   C3_retry_backoff.1⟩

/-! ## C4 — 500 ms spacing between dispatches -/

/-- The spacing step: with a monotone clock the dispatch happens at the later
of the arrival time and 500 ms past the stored timestamp. -/
theorem dispatchTime_eq_max (last a : Nat) (h : last ≤ a) :
    dispatchTime last a = max (last + MIN_DELAY_MS) a := by
  unfold dispatchTime
  split <;> omega

/-- Consecutive dispatches are at least the minimum spacing apart. -/
theorem dispatchTime_ge (last a : Nat) (h : last ≤ a) :
    last + MIN_DELAY_MS ≤ dispatchTime last a := by
  unfold dispatchTime
  split <;> omega

/-- The list of dispatch times unfolds one call at a time. -/
theorem dispatchTimes_cons (last a : Nat) (rest : List Nat) :
    dispatchTimes last (a :: rest) =
      dispatchTime last a :: dispatchTimes (dispatchTime last a) rest := rfl

/-- Consecutive dispatch times of sequential calls are spaced by at least
`MIN_DELAY_MS`. -/
theorem dispatchTimes_chain (last : Nat) (as : List Nat)
    (h : SequentialArrivals last as) :
    List.Chain' (fun d d' => d + MIN_DELAY_MS ≤ d') (dispatchTimes last as) := by
  induction as generalizing last with
  | nil => simp [dispatchTimes]
  | cons a rest ih =>
    obtain ⟨hle, hseq⟩ := h
    cases rest with
    | nil => simp [dispatchTimes]
    | cons a' rest' =>
      have hchain := ih (dispatchTime last a) hseq
      rw [dispatchTimes_cons, dispatchTimes_cons]
      rw [dispatchTimes_cons] at hchain
      exact List.chain'_cons.mpr ⟨dispatchTime_ge _ _ hseq.1, hchain⟩

/-- The last dispatch of a nonempty sequential batch happens at least
`(N-1) * MIN_DELAY_MS` after the first. -/
theorem dispatchTimes_first_last (last : Nat) (as : List Nat)
    (h : SequentialArrivals last as) :
    ∀ d0 dN, (dispatchTimes last as).head? = some d0 →
      (dispatchTimes last as).getLast? = some dN →
      d0 + (as.length - 1) * MIN_DELAY_MS ≤ dN := by
  induction as generalizing last with
  | nil => intro d0 dN h0 _; simp [dispatchTimes] at h0
  | cons a rest ih =>
    obtain ⟨hle, hseq⟩ := h
    intro d0 dN h0 hN
    rw [dispatchTimes_cons] at h0 hN
    simp only [List.head?_cons, Option.some.injEq] at h0
    cases rest with
    | nil =>
      simp only [dispatchTimes, List.getLast?_singleton, Option.some.injEq] at hN
      simp only [List.length_cons, List.length_nil]
      omega
    | cons a' rest' =>
      rw [dispatchTimes_cons, List.getLast?_cons_cons, ← dispatchTimes_cons] at hN
      have hd' : (dispatchTimes (dispatchTime last a) (a' :: rest')).head? =
          some (dispatchTime (dispatchTime last a) a') := by
        rw [dispatchTimes_cons]; rfl
      have hbound := ih (dispatchTime last a) hseq _ dN hd' hN
      have hstep := dispatchTime_ge (dispatchTime last a) a' hseq.1
      simp only [List.length_cons, MIN_DELAY_MS] at *
      omega

/-- C4: every dispatcher call first consults the shared timestamp and delays
until 500 ms past it when needed (`dispatchTime` = the later of arrival and
`last + 500`), so N sequential dispatcher calls span at least
`(N-1) * 500` ms of wall time between the first and last dispatch. -/
theorem C4_dispatch_spacing (last : Nat) (as : List Nat)
    (h : SequentialArrivals last as) :
    (∀ l a, l ≤ a → dispatchTime l a = max (l + MIN_DELAY_MS) a) ∧
    List.Chain' (fun d d' => d + MIN_DELAY_MS ≤ d') (dispatchTimes last as) ∧
    (∀ d0 dN, (dispatchTimes last as).head? = some d0 →
      (dispatchTimes last as).getLast? = some dN →
      d0 + (as.length - 1) * MIN_DELAY_MS ≤ dN) :=
  ⟨fun l a hla => dispatchTime_eq_max l a hla,
   dispatchTimes_chain last as h,
   dispatchTimes_first_last last as h⟩

/-- Witness for C4 on the concrete arrival times 0, 500, 1000 (three back--
to-back calls): the three dispatches land at 500, 1000 and 1500, which are
(3-1) * 500 ms apart end to end. -/
theorem C4_witness :
    SequentialArrivals 0 [0, 500, 1000] ∧
    dispatchTimes 0 [0, 500, 1000] = [500, 1000, 1500] ∧
    500 + ([0, 500, 1000].length - 1) * MIN_DELAY_MS ≤ 1500 := by
  have hseq : SequentialArrivals 0 [0, 500, 1000] := by
    simp [SequentialArrivals, dispatchTime, MIN_DELAY_MS]
  refine ⟨hseq, by decide, ?_⟩
  exact (C4_dispatch_spacing 0 [0, 500, 1000] hseq).2.2 500 1500 (by decide) (by decide)

/-! ## C7 — Ethereum transaction mapping -/

/-- C7 counterexample: for a transaction whose `from` and `to` both differ
from the queried address, the claim demands type `"other"`, but the adapter
types it `"receive"` (the mapper is a two-way `from`-only test,
walletService.ts line 216). -/
theorem C7_counterexample :
    (mapEthTx ethAddrDemo ethTxDemo).type = "receive" ∧
    (mapEthTx ethAddrDemo ethTxDemo).type ≠ "other" ∧
    jsToLower ethTxDemo.fromAddr ≠ jsToLower ethAddrDemo ∧
    jsToLower ethTxDemo.toAddr ≠ jsToLower ethAddrDemo := by
  refine ⟨?_, by decide, by decide, by decide⟩
  decide

/-- C7 amended: `type` is `"send"` when `from` equals the address
case-insensitively and `"receive"` otherwise (also when neither side
matches); `fee = gasUsed * gasPrice` converted from wei; `status` is
`"success"` exactly when the explorer error flag `isError` is `"0"`, else
`"failed"`. -/
theorem C7_amended (address : String) (tx : EtherscanTx) :
    ((mapEthTx address tx).type =
      if jsToLower tx.fromAddr = jsToLower address then "send" else "receive") ∧
    (mapEthTx address tx).fee =
      numToString (weiToEth ((tx.gasUsed : ℚ) * (tx.gasPrice : ℚ))) ∧
    ((mapEthTx address tx).status = "success" ↔ tx.isError = "0") ∧
    ((mapEthTx address tx).status = "failed" ↔ tx.isError ≠ "0") := by
  refine ⟨rfl, by unfold mapEthTx; rw [mul_comm], ?_, ?_⟩ <;>
    · unfold mapEthTx
      dsimp only
      split <;> simp_all

/-! ## C10 — Solana transactions: empty recipient, value = fee -/

/-- Every assembled Solana transaction has an empty `to` and carries the fee
as its `value`. -/
theorem buildSolTx_shape (env : SolEnv) (address sig : String) (td : SolTxDetails) :
    (buildSolTx env address sig td).toAddr = "" ∧
    (buildSolTx env address sig td).value = (buildSolTx env address sig td).fee :=
  ⟨rfl, rfl⟩

/-- Every transaction emitted by the detail loop has an empty `to` and
`value = fee`. -/
theorem processSolSigs_shape (env : SolEnv) (address : String) (sigs : List String) :
    ∀ tx ∈ (processSolSigs env address sigs).1,
      tx.toAddr = "" ∧ tx.value = tx.fee := by
  induction sigs with
  | nil => intro tx htx; simp [processSolSigs] at htx
  | cons s rest ih =>
    intro tx htx
    unfold processSolSigs at htx
    by_cases hs : s = ""
    · rw [if_pos hs] at htx
      exact ih tx htx
    · rw [if_neg hs] at htx
      simp only [List.mem_append] at htx
      rcases htx with h | h
      · cases hres : env.getTransaction s with
        | error e => rw [hres] at h; simp at h
        | ok o =>
          cases o with
          | none => rw [hres] at h; simp at h
          | some td =>
            rw [hres] at h
            simp only [List.mem_singleton] at h
            subst h
            exact buildSolTx_shape env address s td
      · exact ih tx h

/-- C10: in every snapshot the Solana adapter returns, each transaction's
`to` field is the empty string and its `value` equals its `fee` (both the
network fee in SOL), whatever the actual transfer was. -/
theorem C10_solana_tx_shape (env : SolEnv) (address : String) (wd : WalletData)
    (h : (getSolanaWalletData env address).1 = .ok wd) :
    ∀ tx ∈ wd.transactions, tx.toAddr = "" ∧ tx.value = tx.fee := by
  unfold getSolanaWalletData at h
  by_cases hk : env.heliusKey = ""
  · rw [if_pos hk] at h
    simp only [Except.ok.injEq] at h
    subst h
    intro tx htx
    simp [emptySolSnapshot] at htx
  · rw [if_neg hk] at h
    cases hb : env.getBalance with
    | error e => rw [hb] at h; simp at h
    | ok lamports =>
      rw [hb] at h
      cases ha : env.getTokenAccounts with
      | error e => rw [ha] at h; simp at h
      | ok accounts =>
        rw [ha] at h
        cases hsig : env.getSignatures with
        | error e => rw [hsig] at h; simp at h
        | ok sigs =>
          rw [hsig] at h
          simp only [Except.ok.injEq] at h
          subst h
          exact processSolSigs_shape env address (sigs.take 5)

/-- Witness for C10: the concrete healthy Solana run produces the snapshot
`solSnapshotDemo`, and its one transaction has an empty recipient and
`value = fee`. -/
theorem C10_witness :
    solTxOutDemo.toAddr = "" ∧ solTxOutDemo.value = solTxOutDemo.fee :=
  C10_solana_tx_shape solEnvOk solAddrDemo solSnapshotDemo
    (by norm_num +decide [getSolanaWalletData, solEnvOk, solAddrDemo, processSolTokens,
      processSolToken, processSolSigs, buildSolTx, solSnapshotDemo, solTxOutDemo,
      solTxDetailsDemo, lamportsToSol, numToString, jsOrQ, jsOrNat, jsOrStr])
    solTxOutDemo (by simp [solSnapshotDemo])

/-! ## C9 — empty Helius key: empty snapshot, zero calls, no failure -/

/-- C9: with `HELIUS_API_KEY = ""`, a Solana fetch (and therefore
`getWalletData` on any Solana-classified address) succeeds with balance
`"0"`, `balanceUsd = 0` and empty token/transaction lists, making zero
outbound calls; the returned snapshot is exactly what a genuinely empty
wallet (zero balance, no accounts, no signatures) produces with a key
present. -/
theorem C9_missing_key (env : Env) (address : String)
    (hk : env.sol.heliusKey = "")
    (hc : detectBlockchain address = some .solana) :
    getSolanaWalletData env.sol address = (.ok (emptySolSnapshot address), []) ∧
    getWalletData env address = (.ok (emptySolSnapshot address), []) ∧
    (∀ env' : SolEnv, env'.heliusKey ≠ "" →
      env'.getBalance = .ok 0 → env'.getTokenAccounts = .ok [] →
      env'.getSignatures = .ok [] →
      (getSolanaWalletData env' address).1 = .ok (emptySolSnapshot address)) := by
  have h1 : getSolanaWalletData env.sol address = (.ok (emptySolSnapshot address), []) := by
    unfold getSolanaWalletData
    rw [if_pos hk]
  refine ⟨h1, ?_, ?_⟩
  · unfold getWalletData
    rw [hc]
    exact h1
  · intro env' hk' hb ha hs
    unfold getSolanaWalletData
    rw [if_neg hk']
    simp only [hb, ha, hs, processSolTokens, processSolSigs, List.take_nil]
    unfold emptySolSnapshot
    norm_num [lamportsToSol, numToString]
    rfl

/-- Witness for C9: the concrete no-key oracle on the concrete Solana
address, compared with the concrete empty-wallet run. -/
theorem C9_witness :
    getWalletData envNoKey solAddrDemo = (.ok (emptySolSnapshot solAddrDemo), []) ∧
    (getSolanaWalletData solEnvEmptyWallet solAddrDemo).1 =
      .ok (emptySolSnapshot solAddrDemo) :=
  ⟨(C9_missing_key envNoKey solAddrDemo rfl (by decide)).2.1,
   (C9_missing_key envNoKey solAddrDemo rfl (by decide)).2.2 solEnvEmptyWallet
     (by decide) rfl rfl rfl⟩

/-! ## C1 — per-item enrichment failures -/

/-- An Ethereum token whose metadata lookup resolves is always produced, with
price and USD value zeroed when its price lookup rejects. -/
theorem processEthToken_ok (env : EthEnv) (t : TokenBalanceEntry) (md : TokenMetadata)
    (h : env.getTokenMetadata t.contractAddress = .ok md) :
    ∃ tok, (processEthToken env t).1 = .ok tok ∧ EthTokenSpec env t tok := by
  unfold processEthToken
  rw [h]
  refine ⟨_, rfl, ?_⟩
  unfold EthTokenSpec
  refine ⟨by trivial, fun hperr => ?_⟩
  dsimp only
  simp only [hperr]
  exact ⟨by trivial, by simp⟩

/-- When every metadata lookup resolves, the token join resolves with one
produced token per listing entry, related by `EthTokenSpec`. -/
theorem processEthTokens_ok (env : EthEnv) (entries : List TokenBalanceEntry)
    (hmd : ∀ t ∈ entries, ∃ md, env.getTokenMetadata t.contractAddress = .ok md) :
    ∃ toks, (processEthTokens env entries).1 = .ok toks ∧
      List.Forall₂ (EthTokenSpec env) entries toks := by
  induction entries with
  | nil => exact ⟨[], rfl, List.Forall₂.nil⟩
  | cons t rest ih =>
    obtain ⟨md, hmdt⟩ := hmd t (List.mem_cons_self t rest)
    obtain ⟨tok, htok, hspec⟩ := processEthToken_ok env t md hmdt
    obtain ⟨toks, htoks, hrel⟩ := ih (fun t' ht' => hmd t' (List.mem_cons_of_mem t ht'))
    refine ⟨tok :: toks, ?_, List.Forall₂.cons hspec hrel⟩
    unfold processEthTokens
    rw [htok, htoks]

/-- A Solana token account always yields a token; a rejected price lookup
zeroes its price and USD value. -/
theorem processSolToken_spec (env : SolEnv) (a : SolTokenAccount) :
    SolTokenSpec env a (processSolToken env a).1 := by
  unfold processSolToken SolTokenSpec
  refine ⟨by trivial, fun hperr => ?_⟩
  dsimp only
  simp only [hperr]
  exact ⟨by trivial, by simp⟩

/-- The Solana token join always resolves, producing one token per account. -/
theorem processSolTokens_spec (env : SolEnv) (accounts : List SolTokenAccount) :
    (processSolTokens env accounts).1.length = accounts.length ∧
    List.Forall₂ (SolTokenSpec env) accounts (processSolTokens env accounts).1 := by
  induction accounts with
  | nil => exact ⟨rfl, List.Forall₂.nil⟩
  | cons a rest ih =>
    refine ⟨?_, List.Forall₂.cons (processSolToken_spec env a) ih.2⟩
    simpa [processSolTokens] using ih.1

/-- The detail loop emits exactly one transaction per non-skipped signature:
empty signatures and signatures whose detail fetch rejects or resolves null
are dropped, all others are kept. -/
theorem processSolSigs_length (env : SolEnv) (address : String) (sigs : List String) :
    (processSolSigs env address sigs).1.length =
      (sigs.filter (goodSig env)).length := by
  induction sigs with
  | nil => rfl
  | cons s rest ih =>
    unfold processSolSigs
    by_cases hs : s = ""
    · rw [if_pos hs]
      subst hs
      simp [List.filter_cons, goodSig, ih]
    · rw [if_neg hs]
      cases hres : env.getTransaction s with
      | error e =>
        simp [List.filter_cons, goodSig, sigResolved, hres, hs, ih]
      | ok o =>
        cases o <;> simp [List.filter_cons, goodSig, sigResolved, hres, hs, ih]

/-- C1 amended: per-item price-lookup failures are absorbed on both chains
(the token is kept with `price = 0` and `balanceUsd = 0`), Solana token-list
failures and per-transaction detail failures are absorbed (token defaults /
transaction skipped), and a fetch whose top-level calls resolve succeeds —
except that a rejected Ethereum per-token metadata lookup is *not* absorbed:
the amended guarantee for Ethereum therefore assumes metadata lookups
resolve. -/
theorem C1_amended :
    (∀ (env : EthEnv) (address : String) (wei : Nat)
        (entries : List TokenBalanceEntry) (txr : TxListResult),
      env.getBalance = .ok wei → env.getTokenBalances = .ok entries →
      env.txList = .ok txr →
      (∀ t ∈ entries, ∃ md, env.getTokenMetadata t.contractAddress = .ok md) →
      ∃ wd, (getEthereumWalletData env address).1 = .ok wd ∧
        List.Forall₂ (EthTokenSpec env) entries wd.tokens) ∧
    (∀ (env : SolEnv) (address : String) (lamports : ℚ)
        (accounts : List SolTokenAccount) (sigs : List String),
      env.heliusKey ≠ "" → env.getBalance = .ok lamports →
      env.getTokenAccounts = .ok accounts → env.getSignatures = .ok sigs →
      ∃ wd, (getSolanaWalletData env address).1 = .ok wd ∧
        wd.tokens.length = accounts.length ∧
        wd.transactions.length = ((sigs.take 5).filter (goodSig env)).length ∧
        List.Forall₂ (SolTokenSpec env) accounts wd.tokens) := by
  constructor
  · intro env address wei entries txr hwei hent htxr hmd
    obtain ⟨toks, htoks, hrel⟩ := processEthTokens_ok env entries hmd
    unfold getEthereumWalletData
    rw [hwei]
    dsimp only
    rw [hent]
    dsimp only
    rw [htoks]
    dsimp only
    rw [htxr]
    exact ⟨_, rfl, hrel⟩
  · intro env address lamports accounts sigs hk hb ha hs
    unfold getSolanaWalletData
    rw [if_neg hk, hb]
    dsimp only
    rw [ha]
    dsimp only
    rw [hs]
    refine ⟨_, rfl, ?_, ?_, ?_⟩
    · exact (processSolTokens_spec env accounts).1
    · exact processSolSigs_length env address (sigs.take 5)
    · exact (processSolTokens_spec env accounts).2

/-- C1 counterexample: with every call healthy except one token's metadata
lookup, the whole Ethereum fetch fails — the per-item metadata failure is
propagated to the caller, contradicting the claim that it never is. -/
theorem C1_counterexample :
    (getEthereumWalletData ethEnvMetaFail ethAddrDemo).1 = .error ethFailMsg ∧
    detectBlockchain ethAddrDemo = some .ethereum ∧
    ethEnvMetaFail.getBalance = .ok (10 ^ 18) ∧
    ethEnvMetaFail.txList = .ok (.rows [ethTxDemo]) ∧
    ethEnvMetaFail.getTokenMetadata "0xT1" = .error () :=
  ⟨by rfl, by decide, by rfl, by rfl, by rfl⟩

/-- Witness for C1 amended: the three-token run with the middle price lookup
rejecting returns all three tokens, the middle one with `balanceUsd = 0`. -/
theorem C1_witness :
    (getEthereumWalletData ethEnvThreeTokens ethAddrDemo).1 = .ok wdThreeDemo ∧
    wdThreeDemo.tokens.length = 3 ∧
    ethEnvThreeTokens.tokenPrice "0xt2" = .error () ∧
    EthTokenSpec ethEnvThreeTokens ⟨"0xt2", 2000000⟩ ethTokenMidDemo ∧
    ethTokenMidDemo.value = 0 := by
  have hrun : (getEthereumWalletData ethEnvThreeTokens ethAddrDemo).1 = .ok wdThreeDemo := by
    norm_num +decide [getEthereumWalletData, ethEnvThreeTokens, ethAddrDemo,
      processEthTokens, processEthToken, ethMetadataDemo, wdThreeDemo, ethTokenMidDemo,
      weiToEth, numToString, jsOrQ, jsOrNat, jsOrStr, mapEthTx]
  obtain ⟨wd, hwd, hrel⟩ := C1_amended.1 ethEnvThreeTokens ethAddrDemo 0
    [⟨"0xt1", 1000000⟩, ⟨"0xt2", 2000000⟩, ⟨"0xt3", 3000000⟩] (.rows [])
    rfl rfl rfl (fun t _ => ⟨ethMetadataDemo, rfl⟩)
  have hwd' : wd = wdThreeDemo := by
    rw [hwd] at hrun
    exact (Except.ok.injEq _ _).mp hrun
  subst hwd'
  have hmid : EthTokenSpec ethEnvThreeTokens ⟨"0xt2", 2000000⟩ ethTokenMidDemo := by
    simp only [wdThreeDemo] at hrel
    cases hrel with
    | cons h1 hrest =>
      cases hrest with
      | cons h2 _ => exact h2
  exact ⟨hrun, by simp [wdThreeDemo], rfl, hmid, rfl⟩

/-! ## C6 — which outbound calls go through the dispatcher -/

/-- Ethereum per-token calls: the metadata lookup is a bare `axios` call, the
CoinGecko price lookup is dispatched. -/
theorem processEthToken_calls (env : EthEnv) (t : TokenBalanceEntry) :
    ∀ c ∈ (processEthToken env t).2, c.dispatched = isCoinGeckoSite c.site := by
  unfold processEthToken
  intro c hc
  cases h : env.getTokenMetadata t.contractAddress with
  | error e =>
    rw [h] at hc
    simp only [List.mem_singleton] at hc
    subst hc
    rfl
  | ok md =>
    rw [h] at hc
    simp only [List.mem_append, List.mem_singleton] at hc
    rcases hc with hc | hc <;> (subst hc; rfl)

/-- Same property for the whole Ethereum token join. -/
theorem processEthTokens_calls (env : EthEnv) (entries : List TokenBalanceEntry) :
    ∀ c ∈ (processEthTokens env entries).2, c.dispatched = isCoinGeckoSite c.site := by
  induction entries with
  | nil => intro c hc; simp [processEthTokens] at hc
  | cons t rest ih =>
    intro c hc
    unfold processEthTokens at hc
    cases h1 : (processEthToken env t).1 with
    | error e =>
      rw [h1] at hc
      exact processEthToken_calls env t c hc
    | ok tok =>
      rw [h1] at hc
      cases h2 : (processEthTokens env rest).1 with
      | error e =>
        rw [h2] at hc
        simp only [List.mem_append] at hc
        rcases hc with hc | hc
        · exact processEthToken_calls env t c hc
        · exact ih c hc
      | ok toks =>
        rw [h2] at hc
        simp only [List.mem_append] at hc
        rcases hc with hc | hc
        · exact processEthToken_calls env t c hc
        · exact ih c hc

/-- All Solana per-token calls are dispatched. -/
theorem processSolTokens_calls (env : SolEnv) (accounts : List SolTokenAccount) :
    ∀ c ∈ (processSolTokens env accounts).2, c.dispatched = true := by
  induction accounts with
  | nil => intro c hc; simp [processSolTokens] at hc
  | cons a rest ih =>
    intro c hc
    unfold processSolTokens at hc
    simp only [List.mem_append] at hc
    rcases hc with hc | hc
    · unfold processSolToken at hc
      simp only [List.mem_cons, List.mem_singleton, List.not_mem_nil, or_false] at hc
      rcases hc with hc | hc <;> (subst hc; rfl)
    · exact ih c hc

/-- All Solana per-signature calls are dispatched. -/
theorem processSolSigs_calls (env : SolEnv) (address : String) (sigs : List String) :
    ∀ c ∈ (processSolSigs env address sigs).2, c.dispatched = true := by
  induction sigs with
  | nil => intro c hc; simp [processSolSigs] at hc
  | cons s rest ih =>
    intro c hc
    unfold processSolSigs at hc
    by_cases hs : s = ""
    · rw [if_pos hs] at hc
      exact ih c hc
    · rw [if_neg hs] at hc
      simp only [List.mem_cons] at hc
      rcases hc with hc | hc
      · subst hc; rfl
      · exact ih c hc

/-- Every call of a Solana wallet fetch goes through the dispatcher. -/
theorem getSolanaWalletData_calls (env : SolEnv) (address : String) :
    ∀ c ∈ (getSolanaWalletData env address).2, c.dispatched = true := by
  unfold getSolanaWalletData
  have hsingle : ∀ s : CallSite, ∀ c ∈ [Call.mk s true], c.dispatched = true := by
    intro s c hc
    rw [List.mem_singleton] at hc
    subst hc
    rfl
  by_cases hk : env.heliusKey = ""
  · rw [if_pos hk]
    intro c hc
    simp at hc
  · rw [if_neg hk]
    cases hb : env.getBalance with
    | error e => exact hsingle _
    | ok lamports =>
      cases ha : env.getTokenAccounts with
      | error e => exact List.forall_mem_append.mpr ⟨hsingle _, hsingle _⟩
      | ok accounts =>
        cases hs : env.getSignatures with
        | error e =>
          exact List.forall_mem_append.mpr
            ⟨List.forall_mem_append.mpr
              ⟨List.forall_mem_append.mpr ⟨hsingle _, hsingle _⟩,
               processSolTokens_calls env accounts⟩,
             hsingle _⟩
        | ok sigs =>
          exact List.forall_mem_append.mpr
            ⟨List.forall_mem_append.mpr
              ⟨List.forall_mem_append.mpr
                ⟨List.forall_mem_append.mpr
                  ⟨List.forall_mem_append.mpr ⟨hsingle _, hsingle _⟩,
                   processSolTokens_calls env accounts⟩,
                 hsingle _⟩,
               processSolSigs_calls env address (sigs.take 5)⟩,
             hsingle _⟩

/-- In an Ethereum wallet fetch, a call is dispatched exactly when it is a
CoinGecko price call: the Alchemy and Etherscan calls are bare `axios`
calls. -/
theorem getEthereumWalletData_calls (env : EthEnv) (address : String) :
    ∀ c ∈ (getEthereumWalletData env address).2,
      c.dispatched = isCoinGeckoSite c.site := by
  unfold getEthereumWalletData
  have hone : ∀ (s : CallSite) (b : Bool), b = isCoinGeckoSite s →
      ∀ c ∈ [Call.mk s b], c.dispatched = isCoinGeckoSite c.site := by
    intro s b hb c hc
    rw [List.mem_singleton] at hc
    subst hc
    exact hb
  cases hb : env.getBalance with
  | error e => dsimp only; exact hone _ _ rfl
  | ok wei =>
    dsimp only
    cases ha : env.getTokenBalances with
    | error e => dsimp only; exact List.forall_mem_append.mpr ⟨hone _ _ rfl, hone _ _ rfl⟩
    | ok entries =>
      dsimp only
      cases ht : (processEthTokens env entries).1 with
      | error e =>
        dsimp only
        exact List.forall_mem_append.mpr
          ⟨List.forall_mem_append.mpr ⟨hone _ _ rfl, hone _ _ rfl⟩,
           processEthTokens_calls env entries⟩
      | ok toks =>
        dsimp only
        cases hx : env.txList with
        | error e =>
          dsimp only
          exact List.forall_mem_append.mpr
            ⟨List.forall_mem_append.mpr
              ⟨List.forall_mem_append.mpr ⟨hone _ _ rfl, hone _ _ rfl⟩,
               processEthTokens_calls env entries⟩,
             hone _ _ rfl⟩
        | ok txr =>
          dsimp only
          exact List.forall_mem_append.mpr
            ⟨List.forall_mem_append.mpr
              ⟨List.forall_mem_append.mpr
                ⟨List.forall_mem_append.mpr ⟨hone _ _ rfl, hone _ _ rfl⟩,
                 processEthTokens_calls env entries⟩,
               hone _ _ rfl⟩,
             hone _ _ rfl⟩

/-- C6 counterexample: the Ethereum adapter's native-balance and Etherscan
calls appear in the trace as bare (non-dispatched) `axios` calls, so not
every outbound request is routed through the dispatcher. -/
theorem C6_counterexample :
    Call.mk .ethGetBalance false ∈ (getEthereumWalletData ethEnvOk ethAddrDemo).2 ∧
    Call.mk .ethTxList false ∈ (getEthereumWalletData ethEnvOk ethAddrDemo).2 ∧
    detectBlockchain ethAddrDemo = some .ethereum := by
  refine ⟨by decide, by decide, by decide⟩

/-- C6 amended: every Solana-adapter call is routed through
`rateLimitedRequest`, and in the Ethereum adapter exactly the CoinGecko
price calls are — its Alchemy (balance, token listing, metadata) and
Etherscan calls bypass the dispatcher. -/
theorem C6_amended (address : String) :
    (∀ env : SolEnv, ∀ c ∈ (getSolanaWalletData env address).2,
      c.dispatched = true) ∧
    (∀ env : EthEnv, ∀ c ∈ (getEthereumWalletData env address).2,
      c.dispatched = isCoinGeckoSite c.site) :=
  ⟨fun env => getSolanaWalletData_calls env address,
   fun env => getEthereumWalletData_calls env address⟩

/-- Witness for C6 amended at concrete runs: the Solana balance call is
dispatched; the Ethereum balance call's dispatch flag equals its (non-)
CoinGecko classification. -/
theorem C6_witness :
    (Call.mk .solGetBalance true).dispatched = true ∧
    (Call.mk .ethGetBalance false).dispatched = isCoinGeckoSite .ethGetBalance :=
  ⟨(C6_amended solAddrDemo).1 solEnvOk ⟨.solGetBalance, true⟩ (by decide),
   (C6_amended ethAddrDemo).2 ethEnvOk ⟨.ethGetBalance, false⟩ (by decide)⟩

end Snix
